import Mathlib

/-!
# Block types of the toy Minecraft clone (`src/cpp/BlockType.hpp`)

The header declares `enum class BlockType : char` with eight enumerators and
the accessor `getDisplay`, which casts a block type to its underlying `char`.

Embedding.  A C++ `char` is one byte; it is represented by its bit pattern, a
number below `2^8`.  Because the enumeration has a fixed underlying type, its
values are the values of that type, so `BlockType` is a one-field wrapper
around `CChar`, and the eight enumerators are eight named values of it.  The
two casts are the wrapper's projection and constructor.
-/

namespace MinecraftClone

/-- The C++ type `char`: a single byte, given by its bit pattern `0 .. 255`. -/
abbrev CChar := Fin 256

/-- A character literal of the source, encoded in ASCII. -/
def charLit (c : Char) : CChar := Fin.ofNat c.toNat

/-- Value of a `char` when `char` is an unsigned type. -/
def CChar.toUnsigned (c : CChar) : Int := (c.val : Int)

/-- Value of a `char` when `char` is a signed (two's complement) type. -/
def CChar.toSigned (c : CChar) : Int :=
  if c.val < 128 then (c.val : Int) else (c.val : Int) - 256

/-- The type `enum class BlockType : char`: the underlying type is fixed, so a
value of the enumeration is any value of `char`. -/
structure BlockType where
  underlying : CChar
deriving DecidableEq, Repr

namespace BlockType

/-- Enumerator `Air = ' '`. -/
def Air : BlockType := ⟨charLit ' '⟩
/-- Enumerator `Dirt = 'D'`. -/
def Dirt : BlockType := ⟨charLit 'D'⟩
/-- Enumerator `Grass = 'G'`. -/
def Grass : BlockType := ⟨charLit 'G'⟩
/-- Enumerator `Stone = 'S'`. -/
def Stone : BlockType := ⟨charLit 'S'⟩
/-- Enumerator `Sand = 'A'`. -/
def Sand : BlockType := ⟨charLit 'A'⟩
/-- Enumerator `Water = 'W'`. -/
def Water : BlockType := ⟨charLit 'W'⟩
/-- Enumerator `Snow = 'N'`. -/
def Snow : BlockType := ⟨charLit 'N'⟩
/-- Enumerator `Ice = 'I'`. -/
def Ice : BlockType := ⟨charLit 'I'⟩

/-- The enumerators of the declaration, in source order. -/
def declared : List BlockType :=
  [Air, Dirt, Grass, Stone, Sand, Water, Snow, Ice]

end BlockType

/-- The conversion `static_cast<char>(type)` of a block type to its underlying
`char`. -/
def castToChar (type : BlockType) : CChar := type.underlying

/-- The conversion `static_cast<BlockType>(c)` of a `char` to the enumeration:
every `char` is in range of the fixed underlying type. -/
def castToBlockType (c : CChar) : BlockType := ⟨c⟩

/-- The accessor `inline char getDisplay(BlockType type)`. -/
def getDisplay (type : BlockType) : CChar :=
  castToChar type

/-- The documented alphabet `' ', 'D', 'G', 'S', 'A', 'W', 'N', 'I'`. -/
def alphabet : List CChar :=
  [charLit ' ', charLit 'D', charLit 'G', charLit 'S',
   charLit 'A', charLit 'W', charLit 'N', charLit 'I']

/-- The documented table as an explicit identifier-to-character association
list: `' '`=Air, `'D'`=Dirt, `'G'`=Grass, `'S'`=Stone, `'A'`=Sand, `'W'`=Water,
`'N'`=Snow, `'I'`=Ice. -/
def displayTable : List (BlockType × CChar) :=
  [(BlockType.Air, charLit ' '), (BlockType.Dirt, charLit 'D'),
   (BlockType.Grass, charLit 'G'), (BlockType.Stone, charLit 'S'),
   (BlockType.Sand, charLit 'A'), (BlockType.Water, charLit 'W'),
   (BlockType.Snow, charLit 'N'), (BlockType.Ice, charLit 'I')]

/-- Table-driven display lookup: the entry of `displayTable` for an
identifier, if it has one. -/
def displayOfTable (type : BlockType) : Option CChar :=
  displayTable.lookup type

/-! ## Shared lemmas -/

/-- Mapping `getDisplay` over the enumerators gives the alphabet, in order. -/
theorem map_getDisplay_declared :
    BlockType.declared.map getDisplay = alphabet := rfl

/-- A block type is determined by what `getDisplay` returns for it. -/
theorem eq_of_getDisplay_eq {v w : BlockType} (h : getDisplay v = getDisplay w) :
    v = w := by
  cases v
  cases w
  simpa [getDisplay, castToChar] using h

/-- Casting a block type to `char` and back gives the block type again. -/
theorem castToBlockType_castToChar (t : BlockType) :
    castToBlockType (castToChar t) = t := rfl

/-- Casting a `char` to the enumeration and back gives the `char` again. -/
theorem castToChar_castToBlockType (c : CChar) :
    castToChar (castToBlockType c) = c := rfl

/-- A character is in the alphabet exactly when some enumerator displays as it. -/
theorem mem_alphabet_iff (c : CChar) :
    c ∈ alphabet ↔ ∃ v, v ∈ BlockType.declared ∧ getDisplay v = c := by
  rw [← map_getDisplay_declared, List.mem_map]

/-- The eight enumerators are pairwise distinct. -/
theorem declared_nodup : BlockType.declared.Nodup := by decide

/-- The eight alphabet characters are pairwise distinct. -/
theorem alphabet_nodup : alphabet.Nodup := by decide

/-! ## The display table -/

/-- C1: `getDisplay` realises the documented alphabet table, Air ↦ `' '`,
Dirt ↦ `'D'`, Grass ↦ `'G'`, Stone ↦ `'S'`, Sand ↦ `'A'`, Water ↦ `'W'`,
Snow ↦ `'N'`, Ice ↦ `'I'`; the ASCII codes of the eight results are
0x20, 0x44, 0x47, 0x53, 0x41, 0x57, 0x4E, 0x49, so Air displays as the space. -/
theorem getDisplay_table :
    getDisplay BlockType.Air = charLit ' ' ∧
    getDisplay BlockType.Dirt = charLit 'D' ∧
    getDisplay BlockType.Grass = charLit 'G' ∧
    getDisplay BlockType.Stone = charLit 'S' ∧
    getDisplay BlockType.Sand = charLit 'A' ∧
    getDisplay BlockType.Water = charLit 'W' ∧
    getDisplay BlockType.Snow = charLit 'N' ∧
    getDisplay BlockType.Ice = charLit 'I' ∧
    BlockType.declared.map (fun v => (getDisplay v).val) =
      [0x20, 0x44, 0x47, 0x53, 0x41, 0x57, 0x4E, 0x49] := by
  decide

/-- C2: `getDisplay` is injective on the declared enumerators: two distinct
enumerators have distinct display characters; equivalently the list of
enumerators has no repetition and neither has the list of their display
characters. -/
theorem getDisplay_injective_on_declared (v1 v2 : BlockType)
    (h1 : v1 ∈ BlockType.declared) (h2 : v2 ∈ BlockType.declared) (hne : v1 ≠ v2) :
    getDisplay v1 ≠ getDisplay v2 ∧
    BlockType.declared.Nodup ∧ (BlockType.declared.map getDisplay).Nodup := by
  have hmap : (BlockType.declared.map getDisplay).Nodup := by
    rw [map_getDisplay_declared]
    exact alphabet_nodup
  exact ⟨fun h => hne (List.inj_on_of_nodup_map hmap h1 h2 h), declared_nodup, hmap⟩

/-- Witness for C2 at Sand and Snow. -/
theorem getDisplay_injective_on_declared_witness :
    BlockType.Sand ∈ BlockType.declared ∧ BlockType.Snow ∈ BlockType.declared ∧
    BlockType.Sand ≠ BlockType.Snow ∧
    getDisplay BlockType.Sand ≠ getDisplay BlockType.Snow ∧
    BlockType.declared.Nodup ∧ (BlockType.declared.map getDisplay).Nodup :=
  ⟨by decide, by decide, by decide,
    getDisplay_injective_on_declared BlockType.Sand BlockType.Snow
      (by decide) (by decide) (by decide)⟩

/-- C3: `getDisplay` is a bijection between the eight declared enumerators
and the eight-character alphabet: both lists have eight distinct entries, and a
character is in the alphabet if and only if exactly one declared enumerator
displays as it. -/
theorem getDisplay_bijection :
    BlockType.declared.length = 8 ∧ BlockType.declared.Nodup ∧
    alphabet.length = 8 ∧ alphabet.Nodup ∧
    ∀ c : CChar,
      c ∈ alphabet ↔ ∃! v : BlockType, v ∈ BlockType.declared ∧ getDisplay v = c := by
  refine ⟨rfl, declared_nodup, rfl, alphabet_nodup, fun c => ?_⟩
  rw [mem_alphabet_iff]
  constructor
  · rintro ⟨v, hv, hc⟩
    exact ⟨v, ⟨hv, hc⟩, fun w hw => eq_of_getDisplay_eq (hw.2.trans hc.symm)⟩
  · rintro ⟨v, hv, -⟩
    exact ⟨v, hv⟩

/-! ## The value set of `BlockType` -/

/-- C4, as stated, fails: `static_cast<BlockType>('Z')` is a value of
`BlockType` that is none of the eight enumerators, and `getDisplay` returns
`'Z'` for it, which is not an alphabet character. -/
theorem blockType_not_closed :
    castToBlockType (charLit 'Z') ∉ BlockType.declared ∧
    getDisplay (castToBlockType (charLit 'Z')) = charLit 'Z' ∧
    getDisplay (castToBlockType (charLit 'Z')) ∉ alphabet := by
  decide

/-- C4, amended: the values of `BlockType` are exactly the casts of the `char`
values (`getDisplay` and `static_cast<BlockType>` are inverse bijections), eight
distinct ones of them are declared, `getDisplay` returns a result for every
value, and that result is an alphabet character exactly when the value is one
of the eight declared enumerators. -/
theorem getDisplay_total_alphabet_iff_declared :
    Function.Bijective getDisplay ∧
    (∀ t : BlockType, ∃ c : CChar, castToBlockType c = t ∧ getDisplay t = c) ∧
    BlockType.declared.length = 8 ∧ BlockType.declared.Nodup ∧
    ∀ t : BlockType, getDisplay t ∈ alphabet ↔ t ∈ BlockType.declared := by
  refine ⟨⟨fun v w h => eq_of_getDisplay_eq h,
      fun c => ⟨castToBlockType c, castToChar_castToBlockType c⟩⟩,
    fun t => ⟨getDisplay t, castToBlockType_castToChar t, rfl⟩,
    rfl, declared_nodup, fun t => ?_⟩
  rw [mem_alphabet_iff]
  constructor
  · rintro ⟨v, hv, hc⟩
    rwa [← eq_of_getDisplay_eq hc]
  · intro ht
    exact ⟨t, ht, rfl⟩

/-! ## Character codes -/

/-- C5: for every declared enumerator the code of its display character is
in the printable ASCII range 0x20 .. 0x7E, hence below 2^7, and the character
has the same value under a signed and under an unsigned `char`. -/
theorem getDisplay_printable_ascii (v : BlockType) (hv : v ∈ BlockType.declared) :
    0x20 ≤ (getDisplay v).val ∧ (getDisplay v).val ≤ 0x7E ∧
    (getDisplay v).val < 2 ^ 7 ∧
    (getDisplay v).toSigned = (getDisplay v).toUnsigned := by
  revert v
  decide

/-- Witness for C5 at Water. -/
theorem getDisplay_printable_ascii_witness :
    BlockType.Water ∈ BlockType.declared ∧
    0x20 ≤ (getDisplay BlockType.Water).val ∧ (getDisplay BlockType.Water).val ≤ 0x7E ∧
    (getDisplay BlockType.Water).val < 2 ^ 7 ∧
    (getDisplay BlockType.Water).toSigned = (getDisplay BlockType.Water).toUnsigned :=
  ⟨by decide, getDisplay_printable_ascii BlockType.Water (by decide)⟩

/-! ## The cast against an explicit table -/

/-- C9: `getDisplay` returns the underlying `char` of its argument, so
casting the result back to `BlockType` gives the argument again; and on the
eight declared enumerators it agrees with the explicit lookup table, whose keys
are the enumerators and whose entries are the documented alphabet. -/
theorem getDisplay_identity_on_underlying :
    (∀ t : BlockType, getDisplay t = t.underlying) ∧
    (∀ t : BlockType, castToBlockType (getDisplay t) = t) ∧
    displayTable.map Prod.fst = BlockType.declared ∧
    displayTable.map Prod.snd = alphabet ∧
    ∀ v ∈ BlockType.declared, displayOfTable v = some (getDisplay v) := by
  refine ⟨fun _ => rfl, fun _ => rfl, rfl, rfl, ?_⟩
  decide

/-- Witness for C9 at Stone. -/
theorem getDisplay_identity_on_underlying_witness :
    displayOfTable BlockType.Stone = some (getDisplay BlockType.Stone) :=
  getDisplay_identity_on_underlying.2.2.2.2 BlockType.Stone (by decide)

/-! ## Air and the letters -/

/-- C10: among the declared enumerators Air is the only one displayed as a
blank, and every other one is displayed as an uppercase ASCII letter
`'A' .. 'Z'`. -/
theorem air_only_blank (v : BlockType) (hv : v ∈ BlockType.declared) :
    (getDisplay v = charLit ' ' ↔ v = BlockType.Air) ∧
    (v ≠ BlockType.Air → charLit 'A' ≤ getDisplay v ∧ getDisplay v ≤ charLit 'Z') := by
  revert v
  decide

/-- Witness for C10 at Ice. -/
theorem air_only_blank_witness :
    BlockType.Ice ∈ BlockType.declared ∧
    (getDisplay BlockType.Ice = charLit ' ' ↔ BlockType.Ice = BlockType.Air) ∧
    (BlockType.Ice ≠ BlockType.Air →
      charLit 'A' ≤ getDisplay BlockType.Ice ∧ getDisplay BlockType.Ice ≤ charLit 'Z') :=
  ⟨by decide, air_only_blank BlockType.Ice (by decide)⟩

end MinecraftClone
